import Mathlib

/-!
# Verification of the perceive semantic-search core

A shallow embedding, in Lean 4, of the parts of the `perceive` repository
that the specification's quantified properties talk about:

* embedding (de)serialization (`perceive-core/search.rs`),
* the vector search path (`Searcher::search_vector`),
* the reconciler's comparison-strategy decision table
  (`sources/pipeline/match_existing_items.rs`),
* the embedder's buffering and document composition
  (`sources/pipeline/calculate_embeddings.rs`),
* the HTTP read paths of the history and bookmarks scanners
  (`sources/parse_html.rs`, `sources/chromium_history.rs`,
  `sources/chromium_bookmarks.rs`),
* the writer's per-state statements (`sources/pipeline/update_db.rs`),
* the scan orchestrator's error combination (`sources/pipeline/import.rs`),
* the batch-accumulating sender (`batch_sender.rs`), modelled as a
  small-step interleaving semantics over any number of producer threads.

Modelling conventions: Rust `i64` becomes `Int`, `u8`/`u32` become `Nat`
with explicit bounds where they matter, `f32` values are treated as their
32-bit patterns (for the byte-packing claims) or as exact integers (for
the order- and set-theoretic search claims, which do not depend on
floating-point rounding).  Fallible operations return `Option`.
-/

namespace Perceive

/-! ## Embedding serialization (`search.rs`)

`deserialize_embedding` reads little-endian 4-byte groups:
`value.chunks(4).map(|chunk| f32::from_le_bytes([chunk[0], chunk[1], chunk[2], chunk[3]]))`.
A final chunk shorter than 4 bytes makes `chunk[1]`/`chunk[2]`/`chunk[3]`
panic, which the model renders as `none`.  `serialize_embedding` appends
`value.to_le_bytes()` for each element.  An `f32` is modelled by its
32-bit pattern, a `Nat` below `2^32`; a byte is a `Nat` below `256`. -/

/-- `f32::from_le_bytes` on the level of 32-bit patterns. -/
def fromLeBytes (b0 b1 b2 b3 : Nat) : Nat :=
  b0 + 256 * b1 + 65536 * b2 + 16777216 * b3

/-- `f32::to_le_bytes` on the level of 32-bit patterns. -/
def toLeBytes (w : Nat) : List Nat :=
  [w % 256, w / 256 % 256, w / 65536 % 256, w / 16777216 % 256]

/-- `deserialize_embedding` from `search.rs`: chunks of 4 bytes, decoded
little-endian.  `none` models the panic on a short final chunk. -/
def deserialize_embedding : List Nat → Option (List Nat)
  | [] => some []
  | b0 :: b1 :: b2 :: b3 :: rest =>
    (deserialize_embedding rest).map (fun ws => fromLeBytes b0 b1 b2 b3 :: ws)
  | _ => none

/-- `serialize_embedding` from `search.rs`: little-endian bytes of each
element, concatenated. -/
def serialize_embedding : List Nat → List Nat
  | [] => []
  | w :: ws => toLeBytes w ++ serialize_embedding ws

theorem toLeBytes_fromLeBytes (b0 b1 b2 b3 : Nat)
    (h0 : b0 < 256) (h1 : b1 < 256) (h2 : b2 < 256) (h3 : b3 < 256) :
    toLeBytes (fromLeBytes b0 b1 b2 b3) = [b0, b1, b2, b3] := by
  simp only [toLeBytes, fromLeBytes]
  refine congrArg₂ _ ?_ (congrArg₂ _ ?_ (congrArg₂ _ ?_ (congrArg₂ _ ?_ rfl))) <;> omega

theorem fromLeBytes_toLeBytes (w : Nat) (h : w < 4294967296) :
    fromLeBytes (w % 256) (w / 256 % 256) (w / 65536 % 256) (w / 16777216 % 256) = w := by
  simp only [fromLeBytes]
  omega

theorem deserialize_length_mod (b : List Nat) (h : b.length % 4 = 0) :
    ∃ v, deserialize_embedding b = some v := by
  induction b using deserialize_embedding.induct with
  | case1 => exact ⟨[], rfl⟩
  | case2 b0 b1 b2 b3 rest ih =>
    simp only [List.length_cons] at h
    obtain ⟨v, hv⟩ := ih (by omega)
    exact ⟨fromLeBytes b0 b1 b2 b3 :: v, by simp [deserialize_embedding, hv]⟩
  | case3 b hne h1 =>
    exfalso
    match b, hne, h1 with
    | [b0], _, h1 => simp at h
    | [b0, b1], _, h1 => simp at h
    | [b0, b1, b2], _, h1 => simp at h
    | [], hne, _ => exact hne rfl
    | b0 :: b1 :: b2 :: b3 :: rest, _, h1 => exact h1 b0 b1 b2 b3 rest rfl

theorem serialize_deserialize (b : List Nat) (h4 : b.length % 4 = 0)
    (hb : ∀ x ∈ b, x < 256) :
    (deserialize_embedding b).map serialize_embedding = some b := by
  induction b using deserialize_embedding.induct with
  | case1 => rfl
  | case2 b0 b1 b2 b3 rest ih =>
    simp only [List.length_cons] at h4
    have hrec := ih (by omega) (fun x hx => hb x (by simp [hx]))
    obtain ⟨v, hv⟩ := deserialize_length_mod rest (by omega)
    rw [hv, Option.map_some', Option.some.injEq] at hrec
    show ((deserialize_embedding rest).map
        fun ws => fromLeBytes b0 b1 b2 b3 :: ws).map serialize_embedding = _
    rw [hv]
    simp only [Option.map_some', Option.some.injEq]
    show toLeBytes (fromLeBytes b0 b1 b2 b3) ++ serialize_embedding v = _
    rw [toLeBytes_fromLeBytes b0 b1 b2 b3 (hb b0 (by simp)) (hb b1 (by simp))
      (hb b2 (by simp)) (hb b3 (by simp)), hrec]
    rfl
  | case3 b hne h1 =>
    exfalso
    match b, hne, h1 with
    | [b0], _, h1 => simp at h4
    | [b0, b1], _, h1 => simp at h4
    | [b0, b1, b2], _, h1 => simp at h4
    | [], hne, _ => exact hne rfl
    | b0 :: b1 :: b2 :: b3 :: rest, _, h1 => exact h1 b0 b1 b2 b3 rest rfl

theorem deserialize_serialize (v : List Nat) (hv : ∀ w ∈ v, w < 4294967296) :
    deserialize_embedding (serialize_embedding v) = some v := by
  induction v with
  | nil => rfl
  | cons w ws ih =>
    have hw : w < 4294967296 := hv w (by simp)
    have hws := ih (fun x hx => hv x (by simp [hx]))
    have hser : serialize_embedding (w :: ws)
        = w % 256 :: w / 256 % 256 :: w / 65536 % 256 :: w / 16777216 % 256
          :: serialize_embedding ws := rfl
    rw [hser]
    simp only [deserialize_embedding, hws, Option.map_some', Option.some.injEq]
    rw [fromLeBytes_toLeBytes w hw]

/-- C4: `serialize_embedding` and `deserialize_embedding` are mutually
inverse: for every byte buffer whose length is a multiple of 4,
serializing the deserialization gives the buffer back, and for every
vector of f32 values (32-bit patterns), deserializing the serialization
gives the vector back. -/
theorem serialize_embedding_deserialize_embedding_inverse :
    (∀ b : List Nat, b.length % 4 = 0 → (∀ x ∈ b, x < 256) →
      (deserialize_embedding b).map serialize_embedding = some b)
    ∧ (∀ v : List Nat, (∀ w ∈ v, w < 4294967296) →
      deserialize_embedding (serialize_embedding v) = some v) :=
  ⟨serialize_deserialize, deserialize_serialize⟩

theorem serialize_embedding_deserialize_embedding_inverse_witness :
    (deserialize_embedding [1, 2, 3, 4, 255, 0, 0, 0]).map serialize_embedding
      = some [1, 2, 3, 4, 255, 0, 0, 0]
    ∧ deserialize_embedding (serialize_embedding [5, 4294967295]) = some [5, 4294967295] :=
  ⟨serialize_embedding_deserialize_embedding_inverse.1 [1, 2, 3, 4, 255, 0, 0, 0]
      (by decide) (by decide),
    serialize_embedding_deserialize_embedding_inverse.2 [5, 4294967295] (by decide)⟩

/-- C10: `deserialize_embedding` is total exactly under the precondition
that the input length is a multiple of 4: every such buffer decodes
without panicking, while a buffer of length 1 hits the out-of-bounds
index on the short final chunk (modelled as `none`). -/
theorem deserialize_embedding_total_iff_multiple_of_four :
    (∀ b : List Nat, b.length % 4 = 0 → (deserialize_embedding b).isSome)
    ∧ deserialize_embedding [0] = none := by
  constructor
  · intro b h
    obtain ⟨v, hv⟩ := deserialize_length_mod b h
    simp [hv]
  · rfl

theorem deserialize_embedding_total_iff_multiple_of_four_witness :
    (deserialize_embedding [9, 9, 9, 9]).isSome :=
  deserialize_embedding_total_iff_multiple_of_four.1 [9, 9, 9, 9] (by decide)

/-! ## Data model shared by the pipeline stages -/

/-- Skip-reason tags, as used by the read paths
(`SkipReason::{NotFound, FetchError, Unauthorized, Redirected, NoContent}`). -/
inductive SkipTag
  | NotFound
  | FetchError
  | Unauthorized
  | Redirected
  | NoContent
deriving DecidableEq, Repr

/-- Modelled from the spec: the `SkipReason` type lives in perceive-core's
crate root, which is not among the source files; per the spec, it is a
tagged reason and "each reason carries a *permanent* flag". -/
structure SkipReason where
  tag : SkipTag
  permanent : Bool
deriving DecidableEq, Repr

/-- `ItemCompareStrategy` from `sources.rs`. -/
inductive ItemCompareStrategy
  | MTimeAndContent
  | MTime
  | Content
  | Force
deriving DecidableEq, Repr

/-- `ItemCompareStrategy::should_compare_mtime` from `sources.rs`. -/
def ItemCompareStrategy.should_compare_mtime : ItemCompareStrategy → Bool
  | .MTimeAndContent | .MTime => true
  | .Content | .Force => false

/-- `ItemCompareStrategy::should_compare_content` from `sources.rs`. -/
def ItemCompareStrategy.should_compare_content : ItemCompareStrategy → Bool
  | .MTimeAndContent | .Content => true
  | .MTime | .Force => false

/-- `FoundItem` from `sources/import.rs`: the columns the reconciler reads
back for an existing row.  Timestamps are unix seconds (`Int`). -/
structure FoundItem where
  id : Int
  hash : String
  content : String
  modified : Option Int
  last_accessed : Option Int
  skipped : Option SkipReason
  has_embedding : Bool
deriving DecidableEq, Repr

/-- `ScanItemState` from `sources/import.rs`. -/
inductive ScanItemState
  | New
  | Unchanged (id : Int)
  | Found (found : FoundItem)
  | Changed (found : FoundItem)
deriving DecidableEq, Repr

/-- `Option::zip` of the Rust standard library. -/
def optZip : Option α → Option β → Option (α × β)
  | some a, some b => some (a, b)
  | _, _ => none

/-! ## Reconciler decision (`match_to_existing_items`) -/

/-- The per-item classification performed by `match_to_existing_items`
(`sources/pipeline/match_existing_items.rs` lines 69–97, identical in
`sources/import.rs`): `same_time` is the zip of the item's mtime with the
row's `modified`, compared for equality, kept only when the strategy
compares mtime; the first match arm fires when the strategy is `Force` or
the row has no embedding for the chosen model identity. -/
def matchExistingState (compare_strategy : ItemCompareStrategy)
    (found? : Option FoundItem) (item_mtime : Option Int) : ScanItemState :=
  let compare_mtime := compare_strategy.should_compare_mtime
  let mtime_is_sufficient := compare_strategy == ItemCompareStrategy.MTime
  match found? with
  | none => ScanItemState.New
  | some found =>
    let same_time : Option Bool :=
      ((optZip item_mtime found.modified).map (fun p => p.1 == p.2)).filter
        (fun _ => compare_mtime)
    match compare_strategy == ItemCompareStrategy.Force || !found.has_embedding,
        same_time, mtime_is_sufficient with
    | true, _, _ => ScanItemState.Changed found
    | false, some false, _ => ScanItemState.Changed found
    | false, some true, true => ScanItemState.Unchanged found.id
    | false, some true, false => ScanItemState.Found found
    | false, none, _ => ScanItemState.Found found

/-- The claim's *time_match*, written from the spec's words: the equality
of the row's `modified` with the new mtime when the strategy compares
mtime and both timestamps are present, otherwise unknown.  Stated
separately so the theorem can compare it with the code's zip/filter
form. -/
def specTimeMatch (strategy : ItemCompareStrategy)
    (item_mtime existing_modified : Option Int) : Option Bool :=
  match item_mtime, existing_modified with
  | some a, some b => if strategy.should_compare_mtime then some (a == b) else none
  | _, _ => none

theorem sameTime_eq_specTimeMatch (strategy : ItemCompareStrategy)
    (item_mtime existing_modified : Option Int) :
    ((optZip item_mtime existing_modified).map (fun p => p.1 == p.2)).filter
        (fun _ => strategy.should_compare_mtime)
      = specTimeMatch strategy item_mtime existing_modified := by
  rcases item_mtime with _ | a <;> rcases existing_modified with _ | b <;>
    cases h : strategy.should_compare_mtime <;>
    simp [optZip, specTimeMatch, Option.filter, h]

/-- C2: the reconciler's decision table.  With
*force* = (strategy == Force or the row has no embedding for the chosen
model identity) and *time_match* as the spec defines it, a matched item
is classified Changed when force holds; Changed when not force and
time_match is false; Unchanged when not force, time_match is true, and
the strategy is MTime; Found when not force, time_match is true, and the
strategy is not MTime; Found when not force and time_match is unknown;
and an item with no matching row is classified New. -/
theorem match_to_existing_items_truth_table
    (strategy : ItemCompareStrategy) (found : FoundItem) (item_mtime : Option Int) :
    (matchExistingState strategy none item_mtime = ScanItemState.New)
    ∧ ((strategy = ItemCompareStrategy.Force ∨ found.has_embedding = false) →
        matchExistingState strategy (some found) item_mtime
          = ScanItemState.Changed found)
    ∧ (strategy ≠ ItemCompareStrategy.Force → found.has_embedding = true →
        specTimeMatch strategy item_mtime found.modified = some false →
        matchExistingState strategy (some found) item_mtime
          = ScanItemState.Changed found)
    ∧ (strategy ≠ ItemCompareStrategy.Force → found.has_embedding = true →
        specTimeMatch strategy item_mtime found.modified = some true →
        strategy = ItemCompareStrategy.MTime →
        matchExistingState strategy (some found) item_mtime
          = ScanItemState.Unchanged found.id)
    ∧ (strategy ≠ ItemCompareStrategy.Force → found.has_embedding = true →
        specTimeMatch strategy item_mtime found.modified = some true →
        strategy ≠ ItemCompareStrategy.MTime →
        matchExistingState strategy (some found) item_mtime
          = ScanItemState.Found found)
    ∧ (strategy ≠ ItemCompareStrategy.Force → found.has_embedding = true →
        specTimeMatch strategy item_mtime found.modified = none →
        matchExistingState strategy (some found) item_mtime
          = ScanItemState.Found found) := by
  have hst := sameTime_eq_specTimeMatch strategy item_mtime found.modified
  refine ⟨rfl, ?_, ?_, ?_, ?_, ?_⟩
  · rintro (rfl | hemb)
    · simp [matchExistingState]
    · simp [matchExistingState, hemb]
  · intro hforce hemb htm
    have hne : (strategy == ItemCompareStrategy.Force) = false := by
      simp [beq_iff_eq, hforce]
    simp only [matchExistingState, hst, htm, hne, hemb,
      Bool.not_true, Bool.or_false]
  · intro hforce hemb htm hmt
    subst hmt
    have hne : (ItemCompareStrategy.MTime == ItemCompareStrategy.Force) = false := by decide
    simp only [matchExistingState, hst, htm, hne, hemb, Bool.not_true, Bool.or_false]
    rfl
  · intro hforce hemb htm hmt
    have hne : (strategy == ItemCompareStrategy.Force) = false := by
      simp [beq_iff_eq, hforce]
    have hne2 : (strategy == ItemCompareStrategy.MTime) = false := by
      simp [beq_iff_eq, hmt]
    simp only [matchExistingState, hst, htm, hne, hne2, hemb,
      Bool.not_true, Bool.or_false]
  · intro hforce hemb htm
    have hne : (strategy == ItemCompareStrategy.Force) = false := by
      simp [beq_iff_eq, hforce]
    simp only [matchExistingState, hst, htm, hne, hemb, Bool.not_true, Bool.or_false]

theorem match_to_existing_items_truth_table_witness :
    (matchExistingState ItemCompareStrategy.MTime
        (some { id := 7, hash := "h", content := "", modified := some 10,
                last_accessed := none, skipped := none, has_embedding := true })
        (some 10)
      = ScanItemState.Unchanged 7) :=
  (match_to_existing_items_truth_table ItemCompareStrategy.MTime
      { id := 7, hash := "h", content := "", modified := some 10,
        last_accessed := none, skipped := none, has_embedding := true }
      (some 10)).2.2.2.1 (by decide) rfl (by decide) rfl

/-! ## Items and the embedder (`calculate_embeddings`) -/

/-- `ItemMetadata` from the crate root. -/
structure ItemMetadata where
  name : Option String
  author : Option String
  description : Option String
  mtime : Option Int
  atime : Option Int
deriving DecidableEq, Repr

/-- `Item` from the crate root, as the pipeline stages use it.  Raw
content bytes are modelled by the string they compress (the zstd codec is
an opaque, byte-reproducible collaborator, spec §6.5), and `skipped` by
its persisted tag. -/
structure Item where
  source_id : Int
  external_id : String
  hash : Option String
  content : Option String
  raw_content : Option String
  process_version : Int
  skipped : Option SkipTag
  metadata : ItemMetadata
deriving DecidableEq, Repr

/-- Rust's `str::trim`: strip leading and trailing whitespace.  (Lean's
own `String.trim` is built on `Substring` functions the kernel cannot
evaluate, so the model computes on the character list.) -/
def strTrim (s : String) : String :=
  ((s.data.dropWhile Char.isWhitespace).reverse.dropWhile Char.isWhitespace).reverse.asString

/-- `Itertools::join` with separator `"\n"`. -/
def joinNewline : List String → String
  | [] => ""
  | [s] => s
  | s :: rest => s ++ "\n" ++ joinNewline rest

theorem strTrim_empty : strTrim "" = "" := rfl

theorem joinNewline_eq_empty_iff (parts : List String)
    (h : ∀ p ∈ parts, ¬ strTrim p = "") : joinNewline parts = "" ↔ parts = [] := by
  constructor
  · intro he
    match parts, h, he with
    | [], _, _ => rfl
    | [p], h, he =>
      exact absurd (by rw [show p = "" from he]; exact strTrim_empty) (h p (by simp))
    | p :: q :: rest, h, he =>
      have hjoin : joinNewline (p :: q :: rest)
          = (p ++ "\n") ++ joinNewline (q :: rest) := rfl
      rw [hjoin] at he
      have hlen := congrArg String.length he
      rw [String.length_append, String.length_append] at hlen
      have h1 : ("\n" : String).length = 1 := by decide
      have h0 : ("" : String).length = 0 := by decide
      omega
  · rintro rfl
    rfl

/-- The document composition of `calculate_embeddings`
(`sources/pipeline/calculate_embeddings.rs` lines 54–74, identical in
`sources/import.rs`): trimmed content when neither name nor description
is present, else the non-blank entries of `[name, description, content]`
joined with a newline, with an empty join turned into `None`. -/
def itemDocument (item : Item) : Option String :=
  if item.metadata.name.isNone && item.metadata.description.isNone then
    item.content.map strTrim
  else
    let parts :=
      ([item.metadata.name, item.metadata.description, item.content].filterMap id).filter
        (fun s => !(strTrim s == ""))
    let document := joinNewline parts
    if document = "" then none else some document

/-- What the embedder does with one incoming `ScanItem`: either forward
it immediately with `embedding = None`, or buffer the composed document
for the next `model.encode` batch. -/
inductive EmbedAction
  | forwardNone
  | buffer (document : String)
deriving DecidableEq, Repr

/-- The per-item dispatch at the top of `calculate_embeddings`: items in
state `Unchanged` or `Found`, or with `skipped` set, are forwarded with
no embedding; otherwise the composed document is buffered, unless there
is none. -/
def calculateEmbeddingsAction (state : ScanItemState) (item : Item) : EmbedAction :=
  if (match state with
      | ScanItemState.Unchanged _ => true
      | ScanItemState.Found _ => true
      | _ => false) || item.skipped.isSome then
    EmbedAction.forwardNone
  else
    match itemDocument item with
    | none => EmbedAction.forwardNone
    | some document => EmbedAction.buffer document

/-- C5: the embedder buffers exactly the items in state `New` or
`Changed` with no skip reason and a usable document; the document is the
newline-join of the non-blank entries of `[name, description, content]`
when name or description is present, and the trimmed content otherwise;
items with no usable document, and items excluded from buffering, are
forwarded with `embedding = None`. -/
theorem calculate_embeddings_buffering
    (state : ScanItemState) (item : Item) :
    (∀ d, calculateEmbeddingsAction state item = EmbedAction.buffer d →
      (state = ScanItemState.New ∨ ∃ f, state = ScanItemState.Changed f)
        ∧ item.skipped = none ∧ itemDocument item = some d)
    ∧ ((∃ i, state = ScanItemState.Unchanged i) ∨ (∃ f, state = ScanItemState.Found f)
          ∨ item.skipped.isSome →
        calculateEmbeddingsAction state item = EmbedAction.forwardNone)
    ∧ (itemDocument item = none →
        calculateEmbeddingsAction state item = EmbedAction.forwardNone)
    ∧ (item.metadata.name = none → item.metadata.description = none →
        itemDocument item = item.content.map strTrim)
    ∧ (item.metadata.name.isSome ∨ item.metadata.description.isSome →
        itemDocument item =
          (let parts :=
            ([item.metadata.name, item.metadata.description, item.content].filterMap id).filter
              (fun s => !(strTrim s == ""));
          if parts = [] then none else some (joinNewline parts))) := by
  refine ⟨?_, ?_, ?_, ?_, ?_⟩
  · intro d hd
    unfold calculateEmbeddingsAction at hd
    split at hd
    · exact absurd hd (by simp)
    · rename_i hguard
      simp only [Bool.or_eq_true, Option.isSome_iff_exists] at hguard
      push_neg at hguard
      refine ⟨?_, ?_, ?_⟩
      · cases state with
        | New => exact Or.inl rfl
        | Changed f => exact Or.inr ⟨f, rfl⟩
        | Unchanged i => simp at hguard
        | Found f => simp at hguard
      · cases hsk : item.skipped with
        | none => rfl
        | some s => exact absurd hsk (hguard.2 s)
      · revert hd
        cases itemDocument item with
        | none => intro hd; exact absurd hd (by simp)
        | some d0 => intro hd; cases hd; rfl
  · intro h
    unfold calculateEmbeddingsAction
    rcases h with ⟨i, rfl⟩ | ⟨f, rfl⟩ | hsk
    · rfl
    · rfl
    · rw [if_pos]
      simp [hsk]
  · intro hdoc
    unfold calculateEmbeddingsAction
    split
    · rfl
    · rw [hdoc]
  · intro hn hd
    unfold itemDocument
    rw [if_pos (by simp [hn, hd])]
  · intro h
    have hcond : (item.metadata.name.isNone && item.metadata.description.isNone) = false := by
      cases hn : item.metadata.name <;> cases hd2 : item.metadata.description <;>
        simp [hn, hd2] at h ⊢
    unfold itemDocument
    rw [if_neg (by simp [hcond])]
    have hmem : ∀ p ∈ ([item.metadata.name, item.metadata.description,
        item.content].filterMap id).filter (fun s => !(strTrim s == "")), ¬ strTrim p = "" := by
      intro p hp
      have := List.of_mem_filter hp
      simpa using this
    show (if joinNewline (([item.metadata.name, item.metadata.description,
            item.content].filterMap id).filter (fun s => !(strTrim s == ""))) = ""
          then none
          else some (joinNewline (([item.metadata.name, item.metadata.description,
            item.content].filterMap id).filter (fun s => !(strTrim s == ""))))) = _
    by_cases hX : ([item.metadata.name, item.metadata.description,
        item.content].filterMap id).filter (fun s => !(strTrim s == "")) = []
    · rw [if_pos ((joinNewline_eq_empty_iff _ hmem).mpr hX)]
      show _ = (if _ = ([] : List String) then _ else _)
      rw [if_pos hX]
    · rw [if_neg (fun hc => hX ((joinNewline_eq_empty_iff _ hmem).mp hc))]
      show _ = (if _ = ([] : List String) then _ else _)
      rw [if_neg hX]

theorem calculate_embeddings_buffering_witness :
    itemDocument
      { source_id := 1, external_id := "x", hash := none, content := some "body",
        raw_content := none, process_version := 0, skipped := none,
        metadata := { name := some "title", author := none, description := none,
                      mtime := none, atime := none } }
      = (let parts := (([some "title", none, some "body"] : List (Option String)).filterMap id).filter
          (fun s => !(strTrim s == ""));
        if parts = [] then none else some (joinNewline parts)) :=
  (calculate_embeddings_buffering ScanItemState.New
      { source_id := 1, external_id := "x", hash := none, content := some "body",
        raw_content := none, process_version := 0, skipped := none,
        metadata := { name := some "title", author := none, description := none,
                      mtime := none, atime := none } }).2.2.2.2
    (Or.inl (by decide))

/-! ## HTTP reads (`parse_html.rs`, `chromium_history.rs`, `chromium_bookmarks.rs`)

The HTTP client is an opaque collaborator; a read is modelled as a pure
function of the response it would produce.  The readability extractor is
likewise opaque: the response carries the `(title, text)` it extracts
from the body.  The zstd encoder is modelled by the identity on the
stored string (byte-reproducible, spec §6.5). -/

/-- `SourceScannerReadResult` from `sources/pipeline.rs`. -/
inductive SourceScannerReadResult
  | Found
  | Unchanged
  | Omit
deriving DecidableEq, Repr

/-- An HTTP response, as far as the read paths inspect it. -/
structure HttpResponse where
  status : Nat
  contentLength : Option Nat
  contentType : Option String
  etag : Option String
  lastModified : Option Int
  body : String
  extractedTitle : String
  extractedText : String
deriving DecidableEq, Repr

/-- Either a transport error (`client.get(..).send()` returned `Err`) or
a response. -/
inductive FetchResult
  | error
  | response (r : HttpResponse)
deriving DecidableEq, Repr

/-- The outcome of a scanner `read`: the returned `ReadResult`, whether
the HTTP fetch was actually performed, and the mutated item. -/
structure ReadOutcome where
  result : SourceScannerReadResult
  fetched : Bool
  item : Item
deriving DecidableEq, Repr

/-- Rust's `str::starts_with`, computed on the character list (Lean's
`String.startsWith` is built on `Substring` functions the kernel cannot
evaluate). -/
def strStartsWith (s pre : String) : Bool :=
  pre.data.isPrefixOf s.data

/-- The `Content-Type` handling shared by both read paths: the part
before the first `;` (`split_once`), trimmed, defaulting to `text/plain`
when the header is missing. -/
def responseContentType (r : HttpResponse) : String :=
  match r.contentType with
  | none => "text/plain"
  | some v => strTrim ((v.data.takeWhile (fun c => !(c == ';'))).asString)

/-- `HTML_PROCESS_VERSION` from `sources/parse_html.rs`. -/
def HTML_PROCESS_VERSION : Int := 1

/-- `fetch_html` from `sources/parse_html.rs` (lines 78–186): the read
path used by the bookmarks scanner.  `304` is `Unchanged`; then the
status is mapped to a skip reason (`403|401 → Unauthorized`,
`404 → NotFound`, other 3xx → `Redirected`, 4xx/5xx → `FetchError`);
non-text content is stored empty; an empty text body becomes
`NoContent`; HTML bodies go through the extractor. -/
def fetch_html (item : Item) (resp : FetchResult) : ReadOutcome :=
  match resp with
  | FetchResult.error =>
    { result := SourceScannerReadResult.Found, fetched := true,
      item := { item with skipped := some SkipTag.FetchError } }
  | FetchResult.response r =>
    if r.status = 304 then
      { result := SourceScannerReadResult.Unchanged, fetched := true, item := item }
    else
      let skip_reason : Option SkipTag :=
        if r.status = 403 ∨ r.status = 401 then some SkipTag.Unauthorized
        else if r.status = 404 then some SkipTag.NotFound
        else if r.status = 304 then none
        else if 300 ≤ r.status ∧ r.status ≤ 399 then some SkipTag.Redirected
        else if (400 ≤ r.status ∧ r.status ≤ 499) ∨ (500 ≤ r.status ∧ r.status ≤ 599) then
          some SkipTag.FetchError
        else none
      match skip_reason with
      | some s =>
        { result := SourceScannerReadResult.Found, fetched := true,
          item := { item with skipped := some s } }
      | none =>
        let item := { item with
          hash := r.etag,
          metadata := { item.metadata with mtime := r.lastModified } }
        if ¬ strStartsWith (responseContentType r) "text/" then
          { result := SourceScannerReadResult.Found, fetched := true,
            item := { item with content := some "" } }
        else if r.body = "" then
          { result := SourceScannerReadResult.Found, fetched := true,
            item := { item with skipped := some SkipTag.NoContent } }
        else if strStartsWith (responseContentType r) "text/html" then
          { result := SourceScannerReadResult.Found, fetched := true,
            item := { item with
              raw_content := some r.body,
              metadata := { item.metadata with name := some r.extractedTitle },
              content := some r.extractedText,
              process_version := HTML_PROCESS_VERSION } }
        else
          { result := SourceScannerReadResult.Found, fetched := true,
            item := { item with
              content := some r.body,
              process_version := HTML_PROCESS_VERSION } }

/-- The fetch part of `ChromiumHistoryScanner::read`
(`sources/chromium_history.rs` lines 225–300): its own status mapping —
`404 → NotFound`, `401|403 → Unauthorized`, then any remaining status
`≥ 400 → FetchError`; a `304` or a zero `Content-Length` is `Unchanged`;
there is no `Redirected` and no `NoContent` case. -/
def chromiumHistoryFetch (item : Item) (resp : FetchResult) : ReadOutcome :=
  match resp with
  | FetchResult.error =>
    { result := SourceScannerReadResult.Found, fetched := true,
      item := { item with skipped := some SkipTag.FetchError } }
  | FetchResult.response r =>
    let skip_reason0 : Option SkipTag :=
      if r.status = 404 then some SkipTag.NotFound
      else if r.status = 401 ∨ r.status = 403 then some SkipTag.Unauthorized
      else none
    let skip_reason :=
      if skip_reason0.isNone ∧ 400 ≤ r.status then some SkipTag.FetchError
      else skip_reason0
    match skip_reason with
    | some s =>
      { result := SourceScannerReadResult.Found, fetched := true,
        item := { item with skipped := some s } }
    | none =>
      if r.status = 304 ∨ r.contentLength = some 0 then
        { result := SourceScannerReadResult.Unchanged, fetched := true, item := item }
      else
        let item := { item with
          hash := r.etag,
          metadata := { item.metadata with mtime := r.lastModified } }
        if ¬ strStartsWith (responseContentType r) "text/" then
          { result := SourceScannerReadResult.Found, fetched := true,
            item := { item with content := some "" } }
        else if strStartsWith (responseContentType r) "text/html" then
          { result := SourceScannerReadResult.Found, fetched := true,
            item := { item with
              raw_content := some r.body,
              metadata := { item.metadata with name := some r.extractedTitle },
              content := some r.extractedText } }
        else
          { result := SourceScannerReadResult.Found, fetched := true,
            item := { item with content := some r.body } }

/-- The short-circuit prologue of `ChromiumHistoryScanner::read`
(`sources/chromium_history.rs` lines 181–204): unless the strategy is
`Force`, *any* existing skip reason is carried over and the read returns
`Unchanged` without fetching; otherwise an atime no newer than the stored
one (both present) returns `Unchanged` without fetching. -/
def chromiumHistoryRead (existing : Option FoundItem)
    (compare_strategy : ItemCompareStrategy) (item : Item) (resp : FetchResult) :
    ReadOutcome :=
  if compare_strategy ≠ ItemCompareStrategy.Force then
    match existing.bind FoundItem.skipped with
    | some skipped =>
      { result := SourceScannerReadResult.Unchanged, fetched := false,
        item := { item with skipped := some skipped.tag } }
    | none =>
      let newer_access :=
        (((optZip (item.metadata.atime) (existing.bind FoundItem.last_accessed)).map
          (fun p => decide (p.2 < p.1))).getD true)
      if newer_access then chromiumHistoryFetch item resp
      else { result := SourceScannerReadResult.Unchanged, fetched := false, item := item }
  else chromiumHistoryFetch item resp

/-- The atime check of `ChromiumBookmarksScanner::read`, falling through
to `fetch_html` when the new atime is newer (or either side missing). -/
def bookmarksAtimeCheck (existing : Option FoundItem) (item : Item) (resp : FetchResult) :
    ReadOutcome :=
  let newer_access :=
    (((optZip (item.metadata.atime) (existing.bind FoundItem.last_accessed)).map
      (fun p => decide (p.2 < p.1))).getD true)
  if newer_access then fetch_html item resp
  else { result := SourceScannerReadResult.Unchanged, fetched := false, item := item }

/-- The short-circuit prologue of `ChromiumBookmarksScanner::read`
(`sources/chromium_bookmarks.rs` lines 136–164): unlike the history
scanner, an existing skip reason is honoured only when it is permanent;
then the same atime check; the fetch itself is `fetch_html`. -/
def chromiumBookmarksRead (existing : Option FoundItem)
    (compare_strategy : ItemCompareStrategy) (item : Item) (resp : FetchResult) :
    ReadOutcome :=
  if compare_strategy ≠ ItemCompareStrategy.Force then
    match existing.bind FoundItem.skipped with
    | some skipped =>
      if skipped.permanent then
        { result := SourceScannerReadResult.Unchanged, fetched := false,
          item := { item with skipped := some skipped.tag } }
      else bookmarksAtimeCheck existing item resp
    | none => bookmarksAtimeCheck existing item resp
  else fetch_html item resp

/-- C6 (amended): the status mapping of the two HTTP read paths.  For
bookmarks reads (`fetch_html`): 304 yields Unchanged; 404 sets NotFound;
401/403 set Unauthorized; any other 3xx sets Redirected; any other
4xx/5xx sets FetchError; an empty body on a 2xx *text* response sets
NoContent, while a non-text 2xx response stores empty content and no skip
reason.  For history reads (`chromiumHistoryFetch`): 404 sets NotFound;
401/403 set Unauthorized; any other status ≥ 400 sets FetchError; 304 or
a zero `Content-Length` yields Unchanged; any other 3xx is processed as
an ordinary response with no skip reason; NoContent is never set. -/
theorem http_read_status_mapping (item : Item) (r : HttpResponse) :
    (r.status = 304 →
      fetch_html item (FetchResult.response r)
        = { result := SourceScannerReadResult.Unchanged, fetched := true, item := item })
    ∧ (r.status = 404 →
      (fetch_html item (FetchResult.response r)).item.skipped = some SkipTag.NotFound)
    ∧ (r.status = 401 ∨ r.status = 403 →
      (fetch_html item (FetchResult.response r)).item.skipped = some SkipTag.Unauthorized)
    ∧ (300 ≤ r.status → r.status ≤ 399 → r.status ≠ 304 →
      (fetch_html item (FetchResult.response r)).item.skipped = some SkipTag.Redirected)
    ∧ (400 ≤ r.status → r.status ≤ 599 → r.status ≠ 404 → r.status ≠ 401 → r.status ≠ 403 →
      (fetch_html item (FetchResult.response r)).item.skipped = some SkipTag.FetchError)
    ∧ (200 ≤ r.status → r.status ≤ 299 →
        strStartsWith (responseContentType r) "text/" = true → r.body = "" →
      (fetch_html item (FetchResult.response r)).item.skipped = some SkipTag.NoContent)
    ∧ (200 ≤ r.status → r.status ≤ 299 →
        strStartsWith (responseContentType r) "text/" = false →
      (fetch_html item (FetchResult.response r)).item.skipped = item.skipped
        ∧ (fetch_html item (FetchResult.response r)).item.content = some "")
    ∧ (r.status = 404 →
      (chromiumHistoryFetch item (FetchResult.response r)).item.skipped
        = some SkipTag.NotFound)
    ∧ (r.status = 401 ∨ r.status = 403 →
      (chromiumHistoryFetch item (FetchResult.response r)).item.skipped
        = some SkipTag.Unauthorized)
    ∧ (400 ≤ r.status → r.status ≠ 404 → r.status ≠ 401 → r.status ≠ 403 →
      (chromiumHistoryFetch item (FetchResult.response r)).item.skipped
        = some SkipTag.FetchError)
    ∧ ((r.status = 304 ∨ r.contentLength = some 0) → r.status < 400 →
      chromiumHistoryFetch item (FetchResult.response r)
        = { result := SourceScannerReadResult.Unchanged, fetched := true, item := item })
    ∧ (300 ≤ r.status → r.status ≤ 399 → r.status ≠ 304 → r.contentLength ≠ some 0 →
      (chromiumHistoryFetch item (FetchResult.response r)).item.skipped = item.skipped
        ∧ (chromiumHistoryFetch item (FetchResult.response r)).result
            = SourceScannerReadResult.Found)
    ∧ (item.skipped ≠ some SkipTag.NoContent →
      (chromiumHistoryFetch item (FetchResult.response r)).item.skipped
        ≠ some SkipTag.NoContent) := by
  refine ⟨?_, ?_, ?_, ?_, ?_, ?_, ?_, ?_, ?_, ?_, ?_, ?_, ?_⟩
  · intro h
    simp [fetch_html, h]
  · intro h
    simp [fetch_html, h]
  · rintro (h | h) <;> simp [fetch_html, h]
  · intro h1 h2 h3
    have e1 : ¬(r.status = 403 ∨ r.status = 401) := by omega
    have e2 : r.status ≠ 404 := by omega
    simp [fetch_html, h1, h2, h3, e1, e2]
  · intro h1 h2 h3 h4 h5
    have e1 : r.status ≠ 304 := by omega
    have e2 : ¬(r.status = 403 ∨ r.status = 401) := by omega
    have e3 : ¬(300 ≤ r.status ∧ r.status ≤ 399) := by omega
    have e4 : (400 ≤ r.status ∧ r.status ≤ 499) ∨ (500 ≤ r.status ∧ r.status ≤ 599) := by
      omega
    simp [fetch_html, e1, e2, e3, e4, h3]
  · intro h1 h2 hct hbody
    have e1 : r.status ≠ 304 := by omega
    have e2 : ¬(r.status = 403 ∨ r.status = 401) := by omega
    have e3 : r.status ≠ 404 := by omega
    have e4 : ¬(300 ≤ r.status ∧ r.status ≤ 399) := by omega
    have e5 : ¬((400 ≤ r.status ∧ r.status ≤ 499) ∨ (500 ≤ r.status ∧ r.status ≤ 599)) := by
      omega
    simp [fetch_html, e1, e2, e3, e4, e5, hct, hbody]
  · intro h1 h2 hct
    have e1 : r.status ≠ 304 := by omega
    have e2 : ¬(r.status = 403 ∨ r.status = 401) := by omega
    have e3 : r.status ≠ 404 := by omega
    have e4 : ¬(300 ≤ r.status ∧ r.status ≤ 399) := by omega
    have e5 : ¬((400 ≤ r.status ∧ r.status ≤ 499) ∨ (500 ≤ r.status ∧ r.status ≤ 599)) := by
      omega
    constructor <;> simp [fetch_html, e1, e2, e3, e4, e5, hct]
  · intro h
    simp [chromiumHistoryFetch, h]
  · rintro (h | h) <;> simp [chromiumHistoryFetch, h]
  · intro h1 h2 h3 h4
    have e1 : ¬(r.status = 401 ∨ r.status = 403) := by omega
    simp [chromiumHistoryFetch, h2, h3, h4, e1, h1]
  · intro h hlt
    have e2 : r.status ≠ 404 := by omega
    have e3 : ¬(r.status = 401 ∨ r.status = 403) := by omega
    have e4 : ¬(400 : Nat) ≤ r.status := by omega
    simp [chromiumHistoryFetch, e2, e3, e4, h]
  · intro h1 h2 h3 h4
    have e2 : r.status ≠ 404 := by omega
    have e3 : ¬(r.status = 401 ∨ r.status = 403) := by omega
    have e4 : ¬(400 : Nat) ≤ r.status := by omega
    have e5 : ¬(r.status = 304 ∨ r.contentLength = some 0) := by
      rintro (h | h) <;> [omega; exact h4 h]
    constructor <;>
      [skip; skip] <;>
      simp only [chromiumHistoryFetch, e2, e3, e4, e5, if_false, if_neg, ite_false] <;>
      simp [e2, e3, e4, e5] <;>
      by_cases hct : strStartsWith (responseContentType r) "text/" = true <;>
        simp [hct] <;>
      by_cases hht : strStartsWith (responseContentType r) "text/html" = true <;>
        simp [hht]
  · intro hin
    simp only [chromiumHistoryFetch]
    by_cases h404 : r.status = 404
    · simp [h404]
    · by_cases hauth : r.status = 401 ∨ r.status = 403
      · simp [h404, hauth]
      · by_cases h400 : 400 ≤ r.status
        · simp [h404, hauth, h400]
        · by_cases hun : r.status = 304 ∨ r.contentLength = some 0
          · simp [h404, hauth, h400, hun, hin]
          · by_cases hct : strStartsWith (responseContentType r) "text/" = true <;>
              by_cases hht : strStartsWith (responseContentType r) "text/html" = true <;>
              simp [h404, hauth, h400, hun, hct, hht, hin]

theorem http_read_status_mapping_witness :
    (fetch_html
      { source_id := 1, external_id := "https://e.com/", hash := none, content := none,
        raw_content := none, process_version := 0, skipped := none,
        metadata := { name := none, author := none, description := none,
                      mtime := none, atime := none } }
      (FetchResult.response
        { status := 307, contentLength := none, contentType := none, etag := none,
          lastModified := none, body := "", extractedTitle := "",
          extractedText := "" })).item.skipped = some SkipTag.Redirected :=
  (http_read_status_mapping
      { source_id := 1, external_id := "https://e.com/", hash := none, content := none,
        raw_content := none, process_version := 0, skipped := none,
        metadata := { name := none, author := none, description := none,
                      mtime := none, atime := none } }
      { status := 307, contentLength := none, contentType := none, etag := none,
        lastModified := none, body := "", extractedTitle := "",
        extractedText := "" }).2.2.2.1 (by decide) (by decide) (by decide)

/-- C6 counterexample: a 301 response on the history read path.  The
claim says any non-304 3xx sets `skipped = Redirected`; the history
scanner's mapping has no redirect case, and with a zero `Content-Length`
the response is treated as Unchanged with no skip reason at all. -/
theorem chromium_history_redirect_counterexample :
    (chromiumHistoryFetch
      { source_id := 1, external_id := "https://e.com/", hash := none, content := none,
        raw_content := none, process_version := 0, skipped := none,
        metadata := { name := none, author := none, description := none,
                      mtime := none, atime := none } }
      (FetchResult.response
        { status := 301, contentLength := some 0, contentType := none, etag := none,
          lastModified := none, body := "", extractedTitle := "",
          extractedText := "" })).item.skipped = none
    ∧ (chromiumHistoryFetch
      { source_id := 1, external_id := "https://e.com/", hash := none, content := none,
        raw_content := none, process_version := 0, skipped := none,
        metadata := { name := none, author := none, description := none,
                      mtime := none, atime := none } }
      (FetchResult.response
        { status := 301, contentLength := some 0, contentType := none, etag := none,
          lastModified := none, body := "", extractedTitle := "",
          extractedText := "" })).result = SourceScannerReadResult.Unchanged := by
  constructor <;> rfl

/-- C7 (amended): short-circuits of the history and bookmarks reads when
the strategy is not Force.  A permanent stored skip reason makes both
reads return Unchanged without fetching; the history read short-circuits
on *any* stored skip reason, permanent or not, while the bookmarks read
proceeds to the fetch when the reason is non-permanent (and the atime is
newer); an atime no newer than the stored one returns Unchanged without
fetching in both. -/
theorem http_read_short_circuit (existing : FoundItem)
    (strategy : ItemCompareStrategy) (item : Item) (resp : FetchResult) :
    (strategy ≠ ItemCompareStrategy.Force → ∀ sk, existing.skipped = some sk →
      sk.permanent = true →
      chromiumHistoryRead (some existing) strategy item resp
          = { result := SourceScannerReadResult.Unchanged, fetched := false,
              item := { item with skipped := some sk.tag } }
        ∧ chromiumBookmarksRead (some existing) strategy item resp
          = { result := SourceScannerReadResult.Unchanged, fetched := false,
              item := { item with skipped := some sk.tag } })
    ∧ (strategy ≠ ItemCompareStrategy.Force → ∀ sk, existing.skipped = some sk →
      chromiumHistoryRead (some existing) strategy item resp
        = { result := SourceScannerReadResult.Unchanged, fetched := false,
            item := { item with skipped := some sk.tag } })
    ∧ (strategy ≠ ItemCompareStrategy.Force → ∀ sk, existing.skipped = some sk →
      sk.permanent = false → ∀ a b, item.metadata.atime = some a →
      existing.last_accessed = some b → b < a →
      chromiumBookmarksRead (some existing) strategy item resp = fetch_html item resp)
    ∧ (∀ i r, (fetch_html i r).fetched = true)
    ∧ (strategy ≠ ItemCompareStrategy.Force → existing.skipped = none →
      ∀ a b, item.metadata.atime = some a → existing.last_accessed = some b → a ≤ b →
      chromiumHistoryRead (some existing) strategy item resp
          = { result := SourceScannerReadResult.Unchanged, fetched := false, item := item }
        ∧ chromiumBookmarksRead (some existing) strategy item resp
          = { result := SourceScannerReadResult.Unchanged, fetched := false,
              item := item }) := by
  refine ⟨?_, ?_, ?_, ?_, ?_⟩
  · intro hstrat sk hsk hperm
    constructor
    · simp [chromiumHistoryRead, hstrat, Option.bind, hsk]
    · simp [chromiumBookmarksRead, hstrat, Option.bind, hsk, hperm]
  · intro hstrat sk hsk
    simp [chromiumHistoryRead, hstrat, Option.bind, hsk]
  · intro hstrat sk hsk hperm a b ha hb hlt
    have hnewer : ¬ (b < a) = False := by simp [hlt]
    simp [chromiumBookmarksRead, hstrat, Option.bind, hsk, hperm,
      bookmarksAtimeCheck, optZip, ha, hb, hlt]
  · intro i r
    cases r with
    | error => rfl
    | response hr =>
      simp only [fetch_html]
      by_cases h304 : hr.status = 304
      · simp [h304]
      · by_cases hauth : hr.status = 403 ∨ hr.status = 401 <;>
          by_cases h404 : hr.status = 404 <;>
          by_cases h3xx : 300 ≤ hr.status ∧ hr.status ≤ 399 <;>
          by_cases h45 : (400 ≤ hr.status ∧ hr.status ≤ 499)
            ∨ (500 ≤ hr.status ∧ hr.status ≤ 599) <;>
          by_cases hct : strStartsWith (responseContentType hr) "text/" = true <;>
          by_cases hbody : hr.body = "" <;>
          by_cases hht : strStartsWith (responseContentType hr) "text/html" = true <;>
          simp [h304, hauth, h404, h3xx, h45, hct, hbody, hht]
  · intro hstrat hsk a b ha hb hle
    have hnotlt : ¬ b < a := by omega
    constructor
    · simp [chromiumHistoryRead, hstrat, Option.bind, hsk, optZip, ha, hb, hnotlt]
    · simp [chromiumBookmarksRead, hstrat, Option.bind, hsk,
        bookmarksAtimeCheck, optZip, ha, hb, hnotlt]

theorem http_read_short_circuit_witness :
    chromiumHistoryRead
      (some { id := 3, hash := "", content := "", modified := none,
              last_accessed := some 50,
              skipped := some { tag := SkipTag.NotFound, permanent := true },
              has_embedding := true })
      ItemCompareStrategy.MTimeAndContent
      { source_id := 1, external_id := "https://e.com/", hash := none, content := none,
        raw_content := none, process_version := 0, skipped := none,
        metadata := { name := none, author := none, description := none,
                      mtime := none, atime := none } }
      FetchResult.error
      = { result := SourceScannerReadResult.Unchanged, fetched := false,
          item := { source_id := 1, external_id := "https://e.com/", hash := none,
                    content := none, raw_content := none, process_version := 0,
                    skipped := some SkipTag.NotFound,
                    metadata := { name := none, author := none, description := none,
                                  mtime := none, atime := none } } } :=
  ((http_read_short_circuit
      { id := 3, hash := "", content := "", modified := none,
        last_accessed := some 50,
        skipped := some { tag := SkipTag.NotFound, permanent := true },
        has_embedding := true }
      ItemCompareStrategy.MTimeAndContent
      { source_id := 1, external_id := "https://e.com/", hash := none, content := none,
        raw_content := none, process_version := 0, skipped := none,
        metadata := { name := none, author := none, description := none,
                      mtime := none, atime := none } }
      FetchResult.error).1 (by decide)
    { tag := SkipTag.NotFound, permanent := true } rfl rfl).1

/-- C7 counterexample: with a non-Force strategy, the history read
short-circuits to Unchanged without fetching even when the stored skip
reason is *not* permanent, contradicting the claim that a non-permanent
reason does not suppress the fetch. -/
theorem chromium_history_nonpermanent_skip_counterexample :
    (chromiumHistoryRead
      (some { id := 3, hash := "", content := "", modified := none,
              last_accessed := some 50,
              skipped := some { tag := SkipTag.FetchError, permanent := false },
              has_embedding := true })
      ItemCompareStrategy.MTimeAndContent
      { source_id := 1, external_id := "https://e.com/", hash := none, content := none,
        raw_content := none, process_version := 0, skipped := none,
        metadata := { name := none, author := none, description := none,
                      mtime := none, atime := some 100 } }
      FetchResult.error).fetched = false
    ∧ (chromiumHistoryRead
      (some { id := 3, hash := "", content := "", modified := none,
              last_accessed := some 50,
              skipped := some { tag := SkipTag.FetchError, permanent := false },
              has_embedding := true })
      ItemCompareStrategy.MTimeAndContent
      { source_id := 1, external_id := "https://e.com/", hash := none, content := none,
        raw_content := none, process_version := 0, skipped := none,
        metadata := { name := none, author := none, description := none,
                      mtime := none, atime := some 100 } }
      FetchResult.error).result = SourceScannerReadResult.Unchanged := by
  constructor <;> rfl

/-! ## The writer (`update_db`) -/

/-- One row of the `items` table, with the columns the writer's
statements touch.  `skipped` is stored as its persisted tag. -/
structure ItemsRow where
  source_id : Int
  external_id : String
  version : Int
  hash : String
  content : String
  raw_content : Option String
  process_version : Int
  name : Option String
  author : Option String
  description : Option String
  modified : Option Int
  last_accessed : Option Int
  skipped : Option SkipTag
deriving DecidableEq, Repr

/-- One row of `item_embeddings`, keyed externally by
`(item_id, model_id, model_version)`. -/
structure EmbeddingRow where
  item_index_version : Int
  embedding : List Nat
deriving DecidableEq, Repr

/-- The database state the writer manipulates: the `items` table as a
map from row id, the id `last_insert_rowid` would yield next, the
`item_embeddings` table keyed by `(item_id, model_id, model_version)`,
and the three counters. -/
structure DbState where
  items : Int → Option ItemsRow
  nextId : Int
  embeddings : Int × Nat × Nat → Option EmbeddingRow
  added : Nat
  changed : Nat
  unchanged : Nat

/-- The columns the `changed`/`new` statements write from an item
(`named_params!` of `update_db`): absent `hash`/`content` default to the
empty string. -/
def rowOfItem (item : Item) (index_version : Int) : ItemsRow :=
  { source_id := item.source_id
    external_id := item.external_id
    version := index_version
    hash := item.hash.getD ""
    content := item.content.getD ""
    raw_content := item.raw_content
    process_version := item.process_version
    name := item.metadata.name
    author := item.metadata.author
    description := item.metadata.description
    modified := item.metadata.mtime
    last_accessed := item.metadata.atime
    skipped := item.skipped }

/-- One iteration of the writer's per-item loop
(`sources/pipeline/update_db.rs` lines 90–165, with the state payloads of
`sources/import.rs`): `Unchanged` runs
`UPDATE items SET version = ?, last_accessed = ? WHERE id = ?`;
`Found`/`Changed` update every content/metadata column; `New` inserts all
columns and captures `last_insert_rowid()`; an accompanying embedding is
upserted on `(item_id, model_id, model_version)`. -/
def writeItem (model_id model_version : Nat) (index_version : Int)
    (state : ScanItemState) (item : Item) (embedding : Option (List Nat))
    (db : DbState) : DbState :=
  let step : DbState × Int :=
    match state with
    | ScanItemState.Unchanged i =>
      ({ db with
          items := fun k =>
            if k = i then
              (db.items k).map (fun row =>
                { row with version := index_version,
                           last_accessed := item.metadata.atime })
            else db.items k,
          unchanged := db.unchanged + 1 }, i)
    | ScanItemState.Found f =>
      ({ db with
          items := fun k =>
            if k = f.id then (db.items k).map (fun _ => rowOfItem item index_version)
            else db.items k,
          changed := db.changed + 1 }, f.id)
    | ScanItemState.Changed f =>
      ({ db with
          items := fun k =>
            if k = f.id then (db.items k).map (fun _ => rowOfItem item index_version)
            else db.items k,
          changed := db.changed + 1 }, f.id)
    | ScanItemState.New =>
      ({ db with
          items := fun k =>
            if k = db.nextId then some (rowOfItem item index_version) else db.items k,
          nextId := db.nextId + 1,
          added := db.added + 1 }, db.nextId)
  match embedding with
  | none => step.1
  | some e =>
    { step.1 with
        embeddings := fun key =>
          if key = (step.2, model_id, model_version) then
            some { item_index_version := index_version, embedding := serialize_embedding e }
          else step.1.embeddings key }

/-- C8: writing an item in state `Unchanged` touches only the `version`
and `last_accessed` columns of its own row: every other row is untouched,
the target row keeps `content`, `hash`, `process_version`, `raw_content`,
`name`, `author`, `description`, `modified`, and `skipped` exactly, gets
`version = index_version` and `last_accessed` from the scan, and the
embeddings table is untouched. -/
theorem update_db_unchanged_frame (model_id model_version : Nat)
    (index_version : Int) (i : Int) (item : Item) (db : DbState) :
    (∀ k, k ≠ i →
      (writeItem model_id model_version index_version
        (ScanItemState.Unchanged i) item none db).items k = db.items k)
    ∧ (∀ row, db.items i = some row →
      (writeItem model_id model_version index_version
        (ScanItemState.Unchanged i) item none db).items i
        = some { row with version := index_version,
                          last_accessed := item.metadata.atime })
    ∧ (∀ row row', db.items i = some row →
      (writeItem model_id model_version index_version
        (ScanItemState.Unchanged i) item none db).items i = some row' →
      row'.content = row.content ∧ row'.hash = row.hash
        ∧ row'.process_version = row.process_version
        ∧ row'.raw_content = row.raw_content ∧ row'.name = row.name
        ∧ row'.author = row.author ∧ row'.description = row.description
        ∧ row'.modified = row.modified ∧ row'.skipped = row.skipped
        ∧ row'.version = index_version ∧ row'.last_accessed = item.metadata.atime)
    ∧ (writeItem model_id model_version index_version
        (ScanItemState.Unchanged i) item none db).embeddings = db.embeddings := by
  refine ⟨?_, ?_, ?_, rfl⟩
  · intro k hk
    simp [writeItem, hk]
  · intro row hrow
    simp [writeItem, hrow]
  · intro row row' hrow hrow'
    simp [writeItem, hrow] at hrow'
    subst hrow'
    simp

theorem update_db_unchanged_frame_witness :
    ((writeItem 0 0 5 (ScanItemState.Unchanged 3)
      { source_id := 1, external_id := "x", hash := some "newhash",
        content := some "newcontent", raw_content := none, process_version := 9,
        skipped := none,
        metadata := { name := none, author := none, description := none,
                      mtime := some 77, atime := some 88 } }
      none
      { items := fun k => if k = 3 then
          some { source_id := 1, external_id := "x", version := 4, hash := "oldhash",
                 content := "oldcontent", raw_content := none, process_version := 2,
                 name := none, author := none, description := none,
                 modified := some 10, last_accessed := some 20, skipped := none }
          else none,
        nextId := 4, embeddings := fun _ => none, added := 0, changed := 0,
        unchanged := 0 }).items 3)
      = some { source_id := 1, external_id := "x", version := 5, hash := "oldhash",
               content := "oldcontent", raw_content := none, process_version := 2,
               name := none, author := none, description := none,
               modified := some 10, last_accessed := some 88, skipped := none } :=
  (update_db_unchanged_frame 0 0 5 3
      { source_id := 1, external_id := "x", hash := some "newhash",
        content := some "newcontent", raw_content := none, process_version := 9,
        skipped := none,
        metadata := { name := none, author := none, description := none,
                      mtime := some 77, atime := some 88 } }
      { items := fun k => if k = 3 then
          some { source_id := 1, external_id := "x", version := 4, hash := "oldhash",
                 content := "oldcontent", raw_content := none, process_version := 2,
                 name := none, author := none, description := none,
                 modified := some 10, last_accessed := some 20, skipped := none }
          else none,
        nextId := 4, embeddings := fun _ => none, added := 0, changed := 0,
        unchanged := 0 }).2.1
    { source_id := 1, external_id := "x", version := 4, hash := "oldhash",
      content := "oldcontent", raw_content := none, process_version := 2,
      name := none, author := none, description := none,
      modified := some 10, last_accessed := some 20, skipped := none }
    (by norm_num)

/-! ## The scan orchestrator (`scan_source`) -/

/-- The join outcome of one pipeline worker thread. -/
inductive StageResult
  | ok
  | err
  | panicked
deriving DecidableEq, Repr

/-- The five joined stages of `scan_source`
(`sources/pipeline/import.rs`, identical in `sources/import.rs`). -/
structure PipelineJoin where
  db_writer : StageResult
  embedder : StageResult
  readers : List StageResult
  db_lookup : StageResult
  scanner : StageResult
deriving DecidableEq, Repr

/-- `log_thread_error` from `scan_source`: prints the stage's name and
returns true exactly when the thread panicked or returned an error. -/
def log_thread_error : StageResult → Bool
  | StageResult.ok => false
  | StageResult.err => true
  | StageResult.panicked => true

/-- The `errored` accumulator of `scan_source`: the embedder thread's
join is unwrapped (a panic there propagates), so only its `Err` arm
contributes. -/
def scanErrored (j : PipelineJoin) : Bool :=
  log_thread_error j.db_writer || (j.embedder == StageResult.err)
    || j.readers.any log_thread_error || log_thread_error j.db_lookup
    || log_thread_error j.scanner

/-- How `scan_source` can finish. -/
inductive ScanReturn
  | retOk
  | retErr
  | panicked
deriving DecidableEq, Repr

/-- What `scan_source` returns: `Err` only when `create_scanner` failed;
a panicked embedder thread propagates through `.join().unwrap()`; in
every other case — including `errored = true`, which merely prints
"Scanning failed" — the function returns `Ok(returned_model)`. -/
def scan_source_return (scanner_created : Bool) (j : PipelineJoin) : ScanReturn :=
  if !scanner_created then ScanReturn.retErr
  else if j.embedder == StageResult.panicked then ScanReturn.panicked
  else ScanReturn.retOk

/-- C9: at the failing input — a scan whose `db_writer` stage returned an
error while every other stage succeeded — the `errored` flag is set (the
failure is logged under the stage's name and "Scanning failed" is
printed), yet `scan_source` still returns `Ok`; the claim (and spec §4.8)
says any stage failure makes the overall scan return an error. -/
theorem scan_source_swallows_stage_errors :
    scanErrored
      { db_writer := StageResult.err, embedder := StageResult.ok,
        readers := [StageResult.ok, StageResult.ok], db_lookup := StageResult.ok,
        scanner := StageResult.ok } = true
    ∧ scan_source_return true
      { db_writer := StageResult.err, embedder := StageResult.ok,
        readers := [StageResult.ok, StageResult.ok], db_lookup := StageResult.ok,
        scanner := StageResult.ok } = ScanReturn.retOk := by
  constructor <;> rfl

/-! ## The search path (`search.rs`)

Embeddings are exact integer vectors: every property claimed about
`search_vector` is order- and set-theoretic and does not depend on
floating-point rounding.  The per-source HNSW structure of the
`instant_distance` crate is an external collaborator; its `search` is
modelled as the exact enumeration of the stored points in ascending
distance order, with the crate's contract that each returned candidate
carries its stored value and its distance to the query. -/

/-- `SearchItem` from `search.rs`. -/
structure SearchItem where
  id : Int
  score : Int
deriving DecidableEq, Repr

/-- Comparison by score, the order `sort_unstable_by` uses. -/
def SearchItem.scoreLe (a b : SearchItem) : Prop := a.score ≤ b.score

instance : DecidableRel SearchItem.scoreLe :=
  fun a b => inferInstanceAs (Decidable (a.score ≤ b.score))

instance : IsTotal SearchItem SearchItem.scoreLe :=
  ⟨fun a b => Int.le_total a.score b.score⟩

instance : IsTrans SearchItem SearchItem.scoreLe :=
  ⟨fun _ _ _ => Int.le_trans⟩

/-- `SourceSearch` from `search.rs`: one per-source ANN structure, its
points labelled by item id. -/
structure SourceSearch where
  id : Int
  points : List (Int × List Int)
deriving DecidableEq, Repr

/-- `Searcher` from `search.rs`. -/
structure Searcher where
  sources : List SourceSearch
  hidden : List Int
deriving DecidableEq, Repr

/-- `ndarray` dot product of two equal-length vectors. -/
def dotList : List Int → List Int → Int
  | a :: as, b :: bs => a * b + dotList as bs
  | _, _ => 0

/-- `impl instant_distance::Point for Point` (`search.rs` lines 305–309):
`0.0 - self.0.dot(&other.0)`. -/
def pointDistance (p q : List Int) : Int := 0 - dotList p q

/-- Model of `HnswMap::search`: every stored point, paired with its
distance to the query, in ascending distance order. -/
def hnswSearch (points : List (Int × List Int)) (query : List Int) : List SearchItem :=
  List.insertionSort SearchItem.scoreLe
    (points.map (fun p => { id := p.1, score := pointDistance query p.2 }))

/-- `Searcher::search_vector` (`search.rs` lines 175–205): search each
selected source, drop hidden ids, take up to `num_results` per source,
concatenate, sort ascending by score, truncate to `num_results`. -/
def search_vector (s : Searcher) (sources : List Int) (num_results : Nat)
    (vector : List Int) : List SearchItem :=
  let results :=
    (s.sources.filter (fun src => sources.contains src.id)).flatMap
      (fun src =>
        ((hnswSearch src.points vector).filter
          (fun item => !(s.hidden.contains item.id))).take num_results)
  (List.insertionSort SearchItem.scoreLe results).take num_results

/-- C1: `search_vector` returns at most `k` results, sorted
non-decreasing by score; no returned id is hidden; every returned item
comes from a point of a per-source ANN structure whose source id is in
the requested list, and its score is that point's ANN distance, the
negative dot product of the query vector and the stored embedding. -/
theorem search_vector_spec (s : Searcher) (srcs : List Int) (k : Nat)
    (v : List Int) :
    (search_vector s srcs k v).length ≤ k
    ∧ (search_vector s srcs k v).Sorted SearchItem.scoreLe
    ∧ (∀ item ∈ search_vector s srcs k v,
        s.hidden.contains item.id = false
        ∧ ∃ src ∈ s.sources, srcs.contains src.id = true
            ∧ ∃ emb, (item.id, emb) ∈ src.points
            ∧ item.score = 0 - dotList v emb) := by
  refine ⟨?_, ?_, ?_⟩
  · simp only [search_vector]
    exact List.length_take_le _ _
  · simp only [search_vector]
    exact (List.sorted_insertionSort SearchItem.scoreLe _).sublist
      (List.take_sublist _ _)
  · intro item hmem
    simp only [search_vector] at hmem
    have hmem2 := (List.take_sublist _ _).subset hmem
    rw [List.mem_insertionSort] at hmem2
    rw [List.mem_flatMap] at hmem2
    obtain ⟨src, hsrc, hitem⟩ := hmem2
    rw [List.mem_filter] at hsrc
    have hitem2 := (List.take_sublist _ _).subset hitem
    rw [List.mem_filter] at hitem2
    obtain ⟨hhnsw, hnothidden⟩ := hitem2
    rw [hnswSearch, List.mem_insertionSort, List.mem_map] at hhnsw
    obtain ⟨p, hp, hpe⟩ := hhnsw
    refine ⟨by simpa using hnothidden, src, hsrc.1, hsrc.2, p.2, ?_, ?_⟩
    · rw [← hpe] at *
      simpa using hp
    · rw [← hpe]
      rfl

/-- A two-source searcher used to exercise `search_vector_spec` at a
concrete input. -/
def searcherExample : Searcher :=
  { sources := [{ id := 1, points := [(10, [1, 0]), (11, [0, 1])] },
                { id := 2, points := [(20, [1, 1])] }],
    hidden := [11] }

theorem search_vector_spec_witness :
    (search_vector searcherExample [1, 2] 2 [2, 1]).length ≤ 2
    ∧ (searcherExample.hidden.contains (20 : Int) = false
        ∧ ∃ src ∈ searcherExample.sources,
          ([1, 2] : List Int).contains src.id = true
            ∧ ∃ emb, ((20 : Int), emb) ∈ src.points
            ∧ (-3 : Int) = 0 - dotList [2, 1] emb) :=
  ⟨(search_vector_spec searcherExample [1, 2] 2 [2, 1]).1,
    (search_vector_spec searcherExample [1, 2] 2 [2, 1]).2.2
      { id := 20, score := -3 } (by decide)⟩

/-! ## The batch-accumulating sender (`batch_sender.rs`)

`BatchSender` is shared by concurrent producers; it is modelled as a
small-step interleaving semantics.  A configuration carries the shared
`SegQueue` buffer (a FIFO of items, here `Nat`), the `parking_lot` flush
mutex (as the index of the holding thread), the downstream channel as the
list of sent batches, and one control state per thread.  A ghost list
`added` records every item accepted by `add`.  Each constructor of the
step relation is one atomic action of `BatchSenderInner::{add, flush}`:
the `SegQueue` push, the length check against the threshold, `try_lock` /
`lock`, the length read at flush entry, one `pop` iteration of the drain
loop, the lock release, and the channel send. -/

/-- The control state of one thread inside `add`/`flush`. -/
inductive TState
  | idle
  | afterPush
  | tryFlush (wait : Bool)
  | readLen
  | popping (observed : Nat) (acc : List Nat)
  | sending (acc : List Nat)
deriving DecidableEq, Repr

/-- A configuration of the batch sender and its client threads. -/
structure BSConfig where
  threshold : Nat
  buffer : List Nat
  lock : Option Nat
  threads : List TState
  added : List Nat
  sent : List (List Nat)
deriving DecidableEq, Repr

/-- The initial configuration: empty buffer, lock free, `n` idle
producers, nothing accepted, nothing sent. -/
def BSConfig.init (threshold n : Nat) : BSConfig :=
  { threshold := threshold, buffer := [], lock := none,
    threads := List.replicate n TState.idle, added := [], sent := [] }

/-- One atomic step of `BatchSenderInner::{add, flush}`, taken by the
thread at position `pre.length`. -/
inductive BSStep : BSConfig → BSConfig → Prop
  | startAdd (c : BSConfig) (pre post : List TState) (x : Nat)
      (h : c.threads = pre ++ TState.idle :: post) :
      BSStep c { c with buffer := c.buffer ++ [x], added := c.added ++ [x],
                        threads := pre ++ TState.afterPush :: post }
  | checkHigh (c : BSConfig) (pre post : List TState)
      (h : c.threads = pre ++ TState.afterPush :: post)
      (hlen : c.threshold ≤ c.buffer.length) :
      BSStep c { c with threads := pre ++ TState.tryFlush false :: post }
  | checkLow (c : BSConfig) (pre post : List TState)
      (h : c.threads = pre ++ TState.afterPush :: post)
      (hlen : c.buffer.length < c.threshold) :
      BSStep c { c with threads := pre ++ TState.idle :: post }
  | startFlush (c : BSConfig) (pre post : List TState) (w : Bool)
      (h : c.threads = pre ++ TState.idle :: post) :
      BSStep c { c with threads := pre ++ TState.tryFlush w :: post }
  | acquire (c : BSConfig) (pre post : List TState) (w : Bool)
      (h : c.threads = pre ++ TState.tryFlush w :: post)
      (hlock : c.lock = none) :
      BSStep c { c with lock := some pre.length,
                        threads := pre ++ TState.readLen :: post }
  | denyNoWait (c : BSConfig) (pre post : List TState) (j : Nat)
      (h : c.threads = pre ++ TState.tryFlush false :: post)
      (hlock : c.lock = some j) :
      BSStep c { c with threads := pre ++ TState.idle :: post }
  | readZero (c : BSConfig) (pre post : List TState)
      (h : c.threads = pre ++ TState.readLen :: post)
      (hbuf : c.buffer = []) :
      BSStep c { c with lock := none, threads := pre ++ TState.idle :: post }
  | readPos (c : BSConfig) (pre post : List TState)
      (h : c.threads = pre ++ TState.readLen :: post)
      (hbuf : c.buffer ≠ []) :
      BSStep c { c with threads := pre ++ TState.popping c.buffer.length [] :: post }
  | popOne (c : BSConfig) (pre post : List TState) (n : Nat) (acc : List Nat)
      (x : Nat) (rest : List Nat)
      (h : c.threads = pre ++ TState.popping n acc :: post)
      (hacc : acc.length < n) (hbuf : c.buffer = x :: rest) :
      BSStep c { c with buffer := rest,
                        threads := pre ++ TState.popping n (acc ++ [x]) :: post }
  | popDone (c : BSConfig) (pre post : List TState) (n : Nat) (acc : List Nat)
      (h : c.threads = pre ++ TState.popping n acc :: post)
      (hstop : n ≤ acc.length ∨ c.buffer = []) :
      BSStep c { c with lock := none, threads := pre ++ TState.sending acc :: post }
  | sendMsg (c : BSConfig) (pre post : List TState) (acc : List Nat)
      (h : c.threads = pre ++ TState.sending acc :: post) :
      BSStep c { c with sent := c.sent ++ [acc],
                        threads := pre ++ TState.idle :: post }

/-- Reachability: the reflexive-transitive closure of `BSStep`. -/
inductive BSReach : BSConfig → BSConfig → Prop
  | refl (c : BSConfig) : BSReach c c
  | tail {a b c : BSConfig} : BSReach a b → BSStep b c → BSReach a c

theorem BSReach.trans {a b c : BSConfig} (h1 : BSReach a b) (h2 : BSReach b c) :
    BSReach a c := by
  induction h2 with
  | refl => exact h1
  | tail _ s ih => exact BSReach.tail ih s

/-- The items a thread holds in its local `output` vector mid-flush. -/
def TState.accList : TState → List Nat
  | TState.popping _ acc => acc
  | TState.sending acc => acc
  | _ => []

/-- Occurrences of `x` held in the local vectors of in-flight flushes. -/
def inFlight (c : BSConfig) (x : Nat) : Nat :=
  (c.threads.map (fun t => t.accList.count x)).sum

/-- Occurrences of `x` across the batches already sent downstream. -/
def sentCount (c : BSConfig) (x : Nat) : Nat :=
  (c.sent.map (fun b => b.count x)).sum

/-- Occurrences of `x` that are somewhere in the system: still buffered,
held by an in-flight flush, or sent downstream. -/
def pendingCount (c : BSConfig) (x : Nat) : Nat :=
  c.buffer.count x + inFlight c x + sentCount c x

theorem step_conservation {c c' : BSConfig} (h : BSStep c c') (x : Nat)
    (hc : c.added.count x = pendingCount c x) :
    c'.added.count x = pendingCount c' x := by
  cases h <;>
    simp_all [pendingCount, inFlight, sentCount, TState.accList,
      List.count_append, List.count_cons] <;>
    omega

theorem reach_conservation {c0 c : BSConfig} (h : BSReach c0 c) (x : Nat)
    (h0 : c0.added.count x = pendingCount c0 x) :
    c.added.count x = pendingCount c x := by
  induction h with
  | refl => exact h0
  | tail _ s ih => exact step_conservation s x ih

theorem init_conservation (threshold n x : Nat) :
    (BSConfig.init threshold n).added.count x
      = pendingCount (BSConfig.init threshold n) x := by
  simp [BSConfig.init, pendingCount, inFlight, sentCount, TState.accList]

theorem poppingBound_update {c : BSConfig} {pre post : List TState} {s s' : TState}
    (hth : c.threads = pre ++ s :: post)
    (hnew : ∀ n acc, s' = TState.popping n acc → acc.length ≤ n)
    (hc : ∀ t ∈ c.threads, ∀ n acc, t = TState.popping n acc → acc.length ≤ n) :
    ∀ t ∈ pre ++ s' :: post, ∀ n acc, t = TState.popping n acc → acc.length ≤ n := by
  intro t ht n acc hteq
  rcases List.mem_append.mp ht with hpre | hrest
  · exact hc t (by rw [hth]; exact List.mem_append.mpr (Or.inl hpre)) n acc hteq
  · rcases List.mem_cons.mp hrest with rfl | hpost
    · exact hnew n acc hteq
    · exact hc t
        (by rw [hth]; exact List.mem_append.mpr (Or.inr (List.mem_cons.mpr (Or.inr hpost))))
        n acc hteq

theorem step_poppingBound {c c' : BSConfig} (h : BSStep c c')
    (hc : ∀ t ∈ c.threads, ∀ n acc, t = TState.popping n acc → acc.length ≤ n) :
    ∀ t ∈ c'.threads, ∀ n acc, t = TState.popping n acc → acc.length ≤ n := by
  cases h with
  | startAdd pre post x hth =>
    exact poppingBound_update hth (fun n acc h => nomatch h) hc
  | checkHigh pre post hth hlen =>
    exact poppingBound_update hth (fun n acc h => nomatch h) hc
  | checkLow pre post hth hlen =>
    exact poppingBound_update hth (fun n acc h => nomatch h) hc
  | startFlush pre post w hth =>
    exact poppingBound_update hth (fun n acc h => nomatch h) hc
  | acquire pre post w hth hlock =>
    exact poppingBound_update hth (fun n acc h => nomatch h) hc
  | denyNoWait pre post j hth hlock =>
    exact poppingBound_update hth (fun n acc h => nomatch h) hc
  | readZero pre post hth hbuf =>
    exact poppingBound_update hth (fun n acc h => nomatch h) hc
  | readPos pre post hth hbuf =>
    exact poppingBound_update hth (fun n acc h => by cases h; simp) hc
  | popOne pre post n acc x rest hth hacc hbuf =>
    exact poppingBound_update hth
      (fun n' acc' h => by cases h; simp; omega) hc
  | popDone pre post n acc hth hstop =>
    exact poppingBound_update hth (fun n acc h => nomatch h) hc
  | sendMsg pre post acc hth =>
    exact poppingBound_update hth (fun n acc h => nomatch h) hc

theorem reach_poppingBound {threshold n : Nat} {c : BSConfig}
    (h : BSReach (BSConfig.init threshold n) c) :
    ∀ t ∈ c.threads, ∀ ob acc, t = TState.popping ob acc → acc.length ≤ ob := by
  induction h with
  | refl =>
    intro t ht ob acc hteq
    have := List.eq_of_mem_replicate ht
    subst this
    exact nomatch hteq
  | tail _ s ih => exact step_poppingBound s ih

theorem popPhase (n : Nat) : ∀ (rest acc : List Nat) (thr : Nat) (lk : Option Nat)
    (pre post : List TState) (added : List Nat) (sent : List (List Nat)),
    acc.length + rest.length = n →
    BSReach
      { threshold := thr, buffer := rest, lock := lk,
        threads := pre ++ TState.popping n acc :: post, added := added, sent := sent }
      { threshold := thr, buffer := [], lock := lk,
        threads := pre ++ TState.popping n (acc ++ rest) :: post, added := added,
        sent := sent } := by
  intro rest
  induction rest with
  | nil =>
    intro acc thr lk pre post added sent hlen
    simpa using BSReach.refl
      { threshold := thr, buffer := ([] : List Nat), lock := lk,
        threads := pre ++ TState.popping n acc :: post, added := added, sent := sent }
  | cons x rest ih =>
    intro acc thr lk pre post added sent hlen
    have hstep := BSStep.popOne
      { threshold := thr, buffer := x :: rest, lock := lk,
        threads := pre ++ TState.popping n acc :: post, added := added, sent := sent }
      pre post n acc x rest rfl (by simp at hlen ⊢; omega) rfl
    have hrest := ih (acc ++ [x]) thr lk pre post added sent
      (by simp at hlen ⊢; omega)
    have hchain := BSReach.trans (BSReach.tail (BSReach.refl _) hstep) hrest
    simpa [List.append_assoc] using hchain

theorem waited_flush_delivers (thr : Nat) (buf : List Nat) (pre post : List TState)
    (added : List Nat) (sent : List (List Nat)) :
    BSReach
      { threshold := thr, buffer := buf, lock := none,
        threads := pre ++ TState.tryFlush true :: post, added := added, sent := sent }
      { threshold := thr, buffer := [], lock := none,
        threads := pre ++ TState.idle :: post, added := added,
        sent := if buf = [] then sent else sent ++ [buf] } := by
  have h1 := BSStep.acquire
    { threshold := thr, buffer := buf, lock := none,
      threads := pre ++ TState.tryFlush true :: post, added := added, sent := sent }
    pre post true rfl rfl
  by_cases hbuf : buf = []
  · subst hbuf
    have h2 := BSStep.readZero
      { threshold := thr, buffer := ([] : List Nat), lock := some pre.length,
        threads := pre ++ TState.readLen :: post, added := added, sent := sent }
      pre post rfl rfl
    simpa using BSReach.tail (BSReach.tail (BSReach.refl _) h1) h2
  · have h2 := BSStep.readPos
      { threshold := thr, buffer := buf, lock := some pre.length,
        threads := pre ++ TState.readLen :: post, added := added, sent := sent }
      pre post rfl hbuf
    have h3 := popPhase buf.length buf [] thr (some pre.length) pre post added sent
      (by simp)
    have h4 := BSStep.popDone
      { threshold := thr, buffer := ([] : List Nat), lock := some pre.length,
        threads := pre ++ TState.popping buf.length ([] ++ buf) :: post,
        added := added, sent := sent }
      pre post buf.length ([] ++ buf) rfl (Or.inl (by simp))
    have h5 := BSStep.sendMsg
      { threshold := thr, buffer := ([] : List Nat), lock := none,
        threads := pre ++ TState.sending ([] ++ buf) :: post,
        added := added, sent := sent }
      pre post ([] ++ buf) rfl
    have hchain :=
      BSReach.tail
        (BSReach.tail
          (BSReach.trans (BSReach.tail (BSReach.tail (BSReach.refl _) h1) h2) h3)
          h4)
        h5
    simpa [hbuf] using hchain

/-- C3: the batch sender under any number of concurrent producers.
(1) Conservation: in every reachable configuration, the occurrences of an
item accepted by `add` equal its occurrences still buffered, held by
in-flight flushes, or sent downstream — no loss, no duplication.
(2) Hence in a quiescent configuration with an empty buffer (as after
`drop`'s waited flush), every accepted occurrence sits in exactly one
sent batch.  (3) `flush(false)` while another thread holds the flush lock
returns immediately in one step, changing neither buffer nor channel.
(4) A flush in progress holds at most the number of items observed in the
length read at entry.  (5) The drained vector is forwarded as a single
message.  (6) A waited flush (`drop`) with the lock free and the other
threads idle drains the whole buffer and delivers it as one batch. -/
theorem batch_sender_exactly_once :
    (∀ threshold n c x, BSReach (BSConfig.init threshold n) c →
      c.added.count x = pendingCount c x)
    ∧ (∀ threshold n c x, BSReach (BSConfig.init threshold n) c →
      (∀ t ∈ c.threads, t = TState.idle) → c.buffer = [] →
      c.added.count x = sentCount c x)
    ∧ (∀ c pre post j, c.threads = pre ++ TState.tryFlush false :: post →
      c.lock = some j →
      ∃ c', BSStep c c' ∧ c'.threads = pre ++ TState.idle :: post
        ∧ c'.buffer = c.buffer ∧ c'.sent = c.sent ∧ c'.added = c.added)
    ∧ (∀ threshold n c, BSReach (BSConfig.init threshold n) c →
      ∀ t ∈ c.threads, ∀ ob acc, t = TState.popping ob acc → acc.length ≤ ob)
    ∧ (∀ c pre post acc, c.threads = pre ++ TState.sending acc :: post →
      ∃ c', BSStep c c' ∧ c'.sent = c.sent ++ [acc] ∧ c'.buffer = c.buffer
        ∧ c'.added = c.added)
    ∧ (∀ thr buf pre post added sent,
      BSReach
        { threshold := thr, buffer := buf, lock := none,
          threads := pre ++ TState.tryFlush true :: post, added := added,
          sent := sent }
        { threshold := thr, buffer := [], lock := none,
          threads := pre ++ TState.idle :: post, added := added,
          sent := if buf = [] then sent else sent ++ [buf] }) := by
  refine ⟨?_, ?_, ?_, ?_, ?_, ?_⟩
  · intro threshold n c x h
    exact reach_conservation h x (init_conservation threshold n x)
  · intro threshold n c x h hidle hbuf
    have hcons := reach_conservation h x (init_conservation threshold n x)
    have hflight : inFlight c x = 0 := by
      apply List.sum_eq_zero
      intro y hy
      rcases List.mem_map.mp hy with ⟨t, ht, rfl⟩
      rw [hidle t ht]
      rfl
    rw [hcons, pendingCount, hbuf, hflight]
    simp
  · intro c pre post j hth hlock
    exact ⟨_, BSStep.denyNoWait c pre post j hth hlock, rfl, rfl, rfl, rfl⟩
  · intro threshold n c h
    exact reach_poppingBound h
  · intro c pre post acc hth
    exact ⟨_, BSStep.sendMsg c pre post acc hth, rfl, rfl, rfl⟩
  · intro thr buf pre post added sent
    exact waited_flush_delivers thr buf pre post added sent

theorem batch_sender_exactly_once_witness :
    (({ threshold := 2, buffer := [7], lock := none, threads := [TState.afterPush],
        added := [7], sent := [] } : BSConfig).added.count 7
      = pendingCount
          { threshold := 2, buffer := [7], lock := none,
            threads := [TState.afterPush], added := [7], sent := [] } 7)
    ∧ (BSConfig.init 2 1).added.count 7 = sentCount (BSConfig.init 2 1) 7 :=
  ⟨batch_sender_exactly_once.1 2 1
      { threshold := 2, buffer := [7], lock := none, threads := [TState.afterPush],
        added := [7], sent := [] } 7
      (BSReach.tail (BSReach.refl _) (BSStep.startAdd (BSConfig.init 2 1) [] [] 7 rfl)),
    batch_sender_exactly_once.2.1 2 1 (BSConfig.init 2 1) 7 (BSReach.refl _)
      (by decide) rfl⟩

end Perceive
